import Mathlib

/-!
Verification of the process execution and lifecycle supervisor
(`src/process/manager.ts` of the repo-runner agent).

The embedding translates the supervisor into pure Lean definitions:

* the configuration constants come from `src/config` (re-exported next to
  `src/git/client.ts` in this checkout);
* the `runningProcesses` JS `Map` is modelled as an association list with
  `mapHas` / `mapGet` / `mapSet` / `mapDelete` mirroring `Map.has` / `get` /
  `set` / `delete` (insertion order is not observed by any property below);
* the detached long-running branch of `executeCommand` is an event-driven
  state machine: the `data`, `exit`, `error` listeners and the
  `setTimeout` callback run atomically on the JS event loop, so a run is a
  fold of `stepEvent` over a list of `DetachedEvent`s; wall-clock timing
  ("exits after 2 seconds, 30-second window") is represented by the order
  of events in that list;
* the two classification regexes are implemented as executable matchers on
  `List Char` (case-insensitivity of the `/i` flag is modelled by
  lowercasing the scanned text, which leaves the captured digits intact);
* `process.kill` outcomes are an explicit environment parameter
  (`KillOutcome`), and the `try/catch/finally` of
  `terminateTrackedProcess` becomes a total function, reflecting that the
  source absorbs every signal-delivery error.
-/

/-- Constant from src/config: maximum reported tool-result length (4000). -/
def MAX_TOOL_RESULT_LENGTH : Nat := 4000

/-- Constant from src/config: observation window for detached starts, ms. -/
def SERVER_START_TIMEOUT : Nat := 30000

/-- Constant from src/config: default synchronous command timeout, ms. -/
def DEFAULT_COMMAND_TIMEOUT : Nat := 120000

/-- Reported tails use slice(-MAX_TOOL_RESULT_LENGTH / 2), i.e. 2000. -/
def halfMax : Nat := MAX_TOOL_RESULT_LENGTH / 2

/-- Model of the JS `s.slice(-n)`: the trailing `n` characters of `s`
(the whole string when it is shorter than `n`). -/
def tailSlice (s : String) (n : Nat) : String :=
  ⟨s.data.drop (s.data.length - n)⟩

/-- Lowercase every character; models the effect of the regex `/i` flag by
normalising the scanned text (all pattern literals below are lowercase). -/
def toLowerStr (s : String) : String :=
  ⟨s.data.map Char.toLower⟩

/-- Check that `ps` is a prefix of `cs`, character by character. -/
def startsWithList : List Char → List Char → Bool
  | _, [] => true
  | [], _ :: _ => false
  | c :: cs, p :: ps => c == p && startsWithList cs ps

/-- Check that pattern `ps` occurs somewhere inside `cs`. -/
def containsList (ps : List Char) : List Char → Bool
  | [] => startsWithList [] ps
  | c :: cs => startsWithList (c :: cs) ps || containsList ps cs

/-- Longest leading run of ASCII digits, the regex `\d*` scan. -/
def takeDigits : List Char → List Char
  | [] => []
  | c :: cs => if c.isDigit then c :: takeDigits cs else []

/-- Model of the capture group `(\d{4,5})` with nothing following it:
greedily take up to five digits, requiring at least four. -/
def capturePort (cs : List Char) : Option String :=
  let ds := takeDigits cs
  if 4 ≤ ds.length then some ⟨ds.take 5⟩ else none

/-- Try the port regex
`(?:localhost|127\.0\.0\.1|0\.0\.0\.0):(\d{4,5})|on port (\d{4,5})`
at the head of `cs` (text already lowercased).  The alternatives start
with pairwise distinct characters, so an if-chain is an exact model of
the backtracking alternation. -/
def matchPortAt (cs : List Char) : Option String :=
  if startsWithList cs ("localhost:".data) then capturePort (cs.drop 10)
  else if startsWithList cs ("127.0.0.1:".data) then capturePort (cs.drop 10)
  else if startsWithList cs ("0.0.0.0:".data) then capturePort (cs.drop 8)
  else if startsWithList cs ("on port ".data) then capturePort (cs.drop 8)
  else none

/-- Leftmost match of the port regex: scan positions left to right. -/
def findPortList : List Char → Option String
  | [] => none
  | c :: cs =>
    match matchPortAt (c :: cs) with
    | some p => some p
    | none => findPortList cs

/-- The detected port of `combinedOutput.match(portRegex)`, i.e. the value
`portMatch ? (portMatch[1] || portMatch[2]) : null` of manager.ts:157. -/
def findPort (s : String) : Option String :=
  findPortList (toLowerStr s).data

/-- The readiness-phrase alternatives of the success regex
(manager.ts:154). -/
def successPhrases : List String :=
  ["compiled successfully", "ready on", "listening on", "server started",
   "development server is running at", "started successfully"]

/-- Truthiness of `combinedOutput.match(successRegex)`. -/
def matchesSuccessRegex (s : String) : Bool :=
  successPhrases.any fun p => containsList p.data (toLowerStr s).data

/-- The combined text scanned by the timer callback (manager.ts:151). -/
def combinedOutputOf (stdoutData stderrData : String) : String :=
  "stdout:\n" ++ stdoutData ++ "\n\nstderr:\n" ++ stderrData

/-- Heart of the timer callback (manager.ts:151-161): the success flag and
the detected port computed from the captured output. -/
def classifyOutput (stdoutData stderrData : String) : Bool × Option String :=
  let combined := combinedOutputOf stdoutData stderrData
  let detectedPort := findPort combined
  (matchesSuccessRegex combined || detectedPort.isSome, detectedPort)

/-- ProcessInfo from src/config: pid and originating command text. -/
structure ProcessInfo where
  pid : Nat
  command : String
deriving DecidableEq

/-- Model of the `runningProcesses : Map<string, ProcessInfo>`. -/
abbrev ProcessMap := List (String × ProcessInfo)

/-- JS `Map.has`. -/
def mapHas (m : ProcessMap) (k : String) : Bool :=
  m.any fun e => e.1 == k

/-- JS `Map.get` (None for a missing key). -/
def mapGet (m : ProcessMap) (k : String) : Option ProcessInfo :=
  (m.find? fun e => e.1 == k).map fun e => e.2

/-- JS `Map.delete`. -/
def mapDelete (m : ProcessMap) (k : String) : ProcessMap :=
  m.filter fun e => e.1 != k

/-- JS `Map.set`.  The JS map keeps insertion order, which no verified
property observes; the model keys the fresh binding at the front. -/
def mapSet (m : ProcessMap) (k : String) (v : ProcessInfo) : ProcessMap :=
  (k, v) :: mapDelete m k

/-- Number of entries stored for key `k` (for single-occupant claims). -/
def countKey (m : ProcessMap) (k : String) : Nat :=
  (m.filter fun e => e.1 == k).length

/-- Outcome of the `process.kill(pid, SIGTERM)` primitive: success, the
ESRCH "no such process" error, or any other delivery error. -/
inductive KillOutcome where
  | ok
  | esrch
  | otherError (msg : String)
deriving DecidableEq

/-- terminateTrackedProcess (manager.ts:13-33).  The `finally` block
deletes the registry entry whatever `process.kill` did; both catch arms
only log, so the function is total: it never raises. -/
def terminateTrackedProcess (m : ProcessMap) (repoPath : String)
    (kill : Nat → KillOutcome) : ProcessMap :=
  match mapGet m repoPath with
  | some info =>
    match kill info.pid with
    | KillOutcome.ok => mapDelete m repoPath
    | KillOutcome.esrch => mapDelete m repoPath
    | KillOutcome.otherError _ => mapDelete m repoPath
  | none => m

/-- cleanupAllTrackedProcesses (manager.ts:237-248): snapshot the key set,
retire every key, return the final registry together with the list of
keys on which retirement was attempted.  The reported remaining count is
the size of the returned registry. -/
def cleanupAllTrackedProcesses (m : ProcessMap) (kill : Nat → KillOutcome) :
    ProcessMap × List String :=
  let keys := m.map fun e => e.1
  (keys.foldl (fun r repoPath => terminateTrackedProcess r repoPath kill) m, keys)

-- sanity checks on the classification heuristics
example : findPort "Server listening on port 4321" = some "4321" := by decide
example : findPort "listening on port 80" = none := by decide
example : findPort "http://localhost:3000 up" = some "3000" := by decide
example : matchesSuccessRegex "Server LISTENING ON port 80" = true := by decide
example : classifyOutput "Server listening on port 4321" "" = (true, some "4321") := by decide
example : classifyOutput "listening on port 80" "" = (true, none) := by decide
example : findPort "on port 123456" = some "12345" := by decide

/-- Classification kinds of one detached invocation, tagging which resolve
site of manager.ts produced the result (the exit listener, the error
listener, or the timer callback with or without a success match). -/
inductive DetachedKind where
  | earlyExit
  | spawnError
  | startupConfirmed
  | startupUnconfirmed
deriving DecidableEq

/-- The resolve payload of the detached branch of executeCommand: the
fields of the ToolResult objects built at manager.ts:105, 128 and 174,
plus the `kind` tag recording which resolve site fired. -/
structure DetachedResult where
  success : Bool
  pid : Option Nat
  exitCode : Option Int
  error : Option String
  stdout : String
  stderr : String
  detectedPort : Option String
  isRunningDetached : Bool
  kind : DetachedKind
deriving DecidableEq

/-- Events a detached invocation can observe: output chunks on either
stream, the exit event, the error event, and the observation timer
firing.  Each listener body runs atomically on the JS event loop, so a
whole run is a fold over a list of these events. -/
inductive DetachedEvent where
  | stdoutChunk (chunk : String)
  | stderrChunk (chunk : String)
  | exited (code : Option Int) (signal : Option String)
  | errored (msg : String)
  | timerFired
deriving DecidableEq

/-- Captured mutable state of one detached invocation (the closure
variables of manager.ts:62-71) together with the shared registry and the
value the promise resolved with, if any.  `timerActive` is false once the
timer has fired or `clearTimeout` ran; `listenersActive` is false once
`cleanupListeners` ran. -/
structure DetachedState where
  stdoutData : String
  stderrData : String
  processExited : Bool
  exitCode : Option Int
  resultSent : Bool
  timerActive : Bool
  listenersActive : Bool
  registry : ProcessMap
  result : Option DetachedResult
deriving DecidableEq

/-- Resolve payload of the early-exit branch (manager.ts:105). -/
def earlyExitResult (pid : Nat) (code : Option Int)
    (stdoutData stderrData : String) : DetachedResult :=
  { success := false, pid := some pid, exitCode := code, error := none,
    stdout := tailSlice stdoutData halfMax, stderr := tailSlice stderrData halfMax,
    detectedPort := none, isRunningDetached := true, kind := DetachedKind.earlyExit }

/-- Resolve payload of the error-listener branch (manager.ts:128). -/
def spawnErrorResult (pid : Nat) (msg : String)
    (stdoutData stderrData : String) : DetachedResult :=
  { success := false, pid := some pid, exitCode := none, error := some msg,
    stdout := tailSlice stdoutData halfMax, stderr := tailSlice stderrData halfMax,
    detectedPort := none, isRunningDetached := true,
    kind := DetachedKind.spawnError }

/-- Resolve payload of the timer callback (manager.ts:174-182). -/
def timerResult (pid : Nat) (successDetected : Bool) (port : Option String)
    (stdoutData stderrData : String) : DetachedResult :=
  { success := successDetected, pid := some pid, exitCode := none, error := none,
    stdout := tailSlice stdoutData halfMax, stderr := tailSlice stderrData halfMax,
    detectedPort := port, isRunningDetached := true,
    kind := if successDetected then DetachedKind.startupConfirmed
            else DetachedKind.startupUnconfirmed }

/-- The guarded registry removal of manager.ts:112-120 and 133-136:
delete the entry for `repoPath` only when it still records `pid`. -/
def deleteIfSamePid (m : ProcessMap) (repoPath : String) (pid : Nat) : ProcessMap :=
  match mapGet m repoPath with
  | some info => if info.pid == pid then mapDelete m repoPath else m
  | none => m

/-- Body of the exit listener (manager.ts:99-121), already past the
listener-removal guard.  It records the exit, resolves the promise when
no result was sent yet (also clearing the timer and the listeners), and
finally removes the registry entry when it still points at this pid. -/
def exitListenerBody (repoPath : String) (pid : Nat) (code : Option Int)
    (s : DetachedState) : DetachedState :=
  let s1 := { s with processExited := true, exitCode := code }
  let s2 :=
    if s1.resultSent then
      { s1 with registry := deleteIfSamePid s1.registry repoPath pid }
    else
      { s1 with
        result := some (earlyExitResult pid code s1.stdoutData s1.stderrData),
        resultSent := true, timerActive := false, listenersActive := false }
  { s2 with registry := deleteIfSamePid s2.registry repoPath pid }

/-- Body of the error listener (manager.ts:123-137), already past the
listener-removal guard. -/
def errorListenerBody (repoPath : String) (pid : Nat) (msg : String)
    (s : DetachedState) : DetachedState :=
  let s1 :=
    if s.resultSent then s
    else
      { s with
        processExited := true,
        result := some (spawnErrorResult pid msg s.stdoutData s.stderrData),
        resultSent := true, timerActive := false, listenersActive := false }
  { s1 with registry := deleteIfSamePid s1.registry repoPath pid }

/-- Body of the timer callback (manager.ts:147-186).  A real timer fires
at most once, so the active flag is consumed; the callback returns at
once when the process already exited or a result was already sent. -/
def timerBody (repoPath : String) (pid : Nat) (commandStr : String)
    (s : DetachedState) : DetachedState :=
  let s0 := { s with timerActive := false }
  if s0.processExited || s0.resultSent then s0
  else
    let cls := classifyOutput s0.stdoutData s0.stderrData
    { s0 with
      registry := if cls.1 then mapSet s0.registry repoPath ⟨pid, commandStr⟩
                  else s0.registry,
      result := some (timerResult pid cls.1 cls.2 s0.stdoutData s0.stderrData),
      resultSent := true, listenersActive := false }

/-- One atomic event-loop turn of the detached invocation.  Output and
exit/error listeners only run while `cleanupListeners` has not removed
them; the timer callback only runs while the timer is pending. -/
def stepEvent (repoPath : String) (pid : Nat) (commandStr : String)
    (s : DetachedState) : DetachedEvent → DetachedState
  | DetachedEvent.stdoutChunk c =>
    if s.listenersActive then { s with stdoutData := s.stdoutData ++ c } else s
  | DetachedEvent.stderrChunk c =>
    if s.listenersActive then { s with stderrData := s.stderrData ++ c } else s
  | DetachedEvent.exited code _ =>
    if s.listenersActive then exitListenerBody repoPath pid code s else s
  | DetachedEvent.errored msg =>
    if s.listenersActive then errorListenerBody repoPath pid msg s else s
  | DetachedEvent.timerFired =>
    if s.timerActive then timerBody repoPath pid commandStr s else s

/-- Fold a list of events through the state machine. -/
def runDetached (repoPath : String) (pid : Nat) (commandStr : String)
    (s : DetachedState) (events : List DetachedEvent) : DetachedState :=
  events.foldl (stepEvent repoPath pid commandStr) s

/-- State right after the spawn of manager.ts:84-97: empty buffers, all
flags fresh, timer pending, listeners attached, no result. -/
def initialDetachedState (registry : ProcessMap) : DetachedState :=
  { stdoutData := "", stderrData := "", processExited := false, exitCode := none,
    resultSent := false, timerActive := true, listenersActive := true,
    registry := registry, result := none }

/-- The long-running branch of executeCommand (manager.ts:54-196): first
retire the current occupant of `repoPath` (line 56), then spawn and feed
the observed events through the state machine. -/
def executeCommandLongRunning (registry : ProcessMap) (repoPath : String)
    (kill : Nat → KillOutcome) (pid : Nat) (commandStr : String)
    (events : List DetachedEvent) : DetachedState :=
  runDetached repoPath pid commandStr
    (initialDetachedState (terminateTrackedProcess registry repoPath kill)) events

/-- Fields of the settled execa result consumed by the synchronous branch
(manager.ts:203-213); `reject: false` means a non-zero exit is delivered
here rather than thrown. -/
structure ExecaResult where
  exitCode : Option Int
  timedOut : Bool
  signal : Option String
  stdout : String
  stderr : String
deriving DecidableEq

/-- Which notes branch of manager.ts:220-222 fired. -/
inductive SyncKind where
  | succeeded
  | timedOutKind
  | failedExit
deriving DecidableEq

/-- The ToolResult of the synchronous branch (manager.ts:224). -/
structure SyncResult where
  success : Bool
  stdout : String
  stderr : String
  exitCode : Option Int
  timedOut : Bool
  signal : Option String
  kind : SyncKind
deriving DecidableEq

/-- The timeout resolution of manager.ts:200: `timeoutOverride ||
DEFAULT_COMMAND_TIMEOUT`, where a 0 override is falsy in JS. -/
def resolveTimeout (timeoutOverride : Option Nat) : Nat :=
  match timeoutOverride with
  | some t => if t = 0 then DEFAULT_COMMAND_TIMEOUT else t
  | none => DEFAULT_COMMAND_TIMEOUT

/-- The synchronous (non-detached) branch of executeCommand
(manager.ts:198-224), as a function of the settled execa result.  The
code computes `success = exitCode === 0 && !timedOut`, then forces
`success = false` again in the timeout branch of the notes chain. -/
def executeCommandSync (res : ExecaResult) : SyncResult :=
  let truncatedStdout := tailSlice res.stdout halfMax
  let truncatedStderr := tailSlice res.stderr halfMax
  let success0 := res.exitCode == some 0 && !res.timedOut
  let kind := if success0 then SyncKind.succeeded
              else if res.timedOut then SyncKind.timedOutKind
              else SyncKind.failedExit
  let success := if success0 then success0
                 else if res.timedOut then false
                 else success0
  { success := success, stdout := truncatedStdout, stderr := truncatedStderr,
    exitCode := res.exitCode, timedOut := res.timedOut, signal := res.signal,
    kind := kind }

/-- Concatenated stdout chunks of an event list. -/
def stdoutOf : List DetachedEvent → String
  | [] => ""
  | DetachedEvent.stdoutChunk c :: rest => c ++ stdoutOf rest
  | _ :: rest => stdoutOf rest

/-- Concatenated stderr chunks of an event list. -/
def stderrOf : List DetachedEvent → String
  | [] => ""
  | DetachedEvent.stderrChunk c :: rest => c ++ stderrOf rest
  | _ :: rest => stderrOf rest

/-- Output events carry data; exit, error and the timer resolve the race. -/
def isDataEvent : DetachedEvent → Bool
  | DetachedEvent.stdoutChunk _ => true
  | DetachedEvent.stderrChunk _ => true
  | _ => false

-- sanity checks on the state machine
example :
    (executeCommandLongRunning [] "k" (fun _ => KillOutcome.ok) 7 "npm start"
      [DetachedEvent.stdoutChunk "Server listening on port 4321",
       DetachedEvent.timerFired]).result =
    some (timerResult 7 true (some "4321") "Server listening on port 4321" "") := by
  decide

example :
    mapGet (executeCommandLongRunning [] "k" (fun _ => KillOutcome.ok) 7 "npm start"
      [DetachedEvent.stdoutChunk "Server listening on port 4321",
       DetachedEvent.timerFired]).registry "k" = some ⟨7, "npm start"⟩ := by
  decide

example :
    (executeCommandLongRunning [] "k" (fun _ => KillOutcome.ok) 7 "npm start"
      [DetachedEvent.stderrChunk "boom", DetachedEvent.exited (some 1) none,
       DetachedEvent.timerFired]).result =
    some (earlyExitResult 7 (some 1) "" "boom") := by
  decide

example :
    (executeCommandSync ⟨some 0, true, none, "", ""⟩).success = false ∧
    (executeCommandSync ⟨some 0, true, none, "", ""⟩).kind = SyncKind.timedOutKind := by
  decide

/-! Helper lemmas about strings (the logical model of `String` is a list
of characters). -/

lemma str_ext {a b : String} (h : a.data = b.data) : a = b := by
  cases a
  cases b
  exact congrArg String.mk h

lemma str_append_data (a b : String) : (a ++ b).data = a.data ++ b.data := rfl

lemma str_append_empty (s : String) : s ++ "" = s := by
  apply str_ext
  simp [str_append_data]

lemma str_empty_append (s : String) : "" ++ s = s := by
  apply str_ext
  simp [str_append_data]

lemma str_append_assoc (a b c : String) : a ++ b ++ c = a ++ (b ++ c) := by
  apply str_ext
  simp [str_append_data]

lemma str_length_append (a b : String) : (a ++ b).length = a.length + b.length := by
  show (a ++ b).data.length = a.data.length + b.data.length
  rw [str_append_data, List.length_append]

/-! Helper lemmas about the registry model. -/

lemma mapHas_mapDelete_self (m : ProcessMap) (k : String) :
    mapHas (mapDelete m k) k = false := by
  simp [mapDelete, mapHas, List.any_eq_true, List.mem_filter]

lemma mapGet_eq_none_of_has_false {m : ProcessMap} {k : String}
    (h : mapHas m k = false) : mapGet m k = none := by
  simp only [mapHas, List.any_eq_false] at h
  have hf : List.find? (fun e => e.1 == k) m = none := List.find?_eq_none.mpr h
  unfold mapGet
  rw [hf]
  rfl

lemma mapGet_mapDelete_self (m : ProcessMap) (k : String) :
    mapGet (mapDelete m k) k = none :=
  mapGet_eq_none_of_has_false (mapHas_mapDelete_self m k)

lemma mapHas_eq_false_of_get_none {m : ProcessMap} {k : String}
    (h : mapGet m k = none) : mapHas m k = false := by
  unfold mapGet at h
  have hf : List.find? (fun e => e.1 == k) m = none := by
    cases hf : List.find? (fun e => e.1 == k) m with
    | none => rfl
    | some e =>
      rw [hf] at h
      cases h
  simp only [mapHas, List.any_eq_false]
  exact List.find?_eq_none.mp hf

lemma mapGet_mapSet_self (m : ProcessMap) (k : String) (v : ProcessInfo) :
    mapGet (mapSet m k v) k = some v := by
  simp [mapGet, mapSet, List.find?_cons_of_pos]

lemma countKey_mapDelete_self (m : ProcessMap) (k : String) :
    countKey (mapDelete m k) k = 0 := by
  simp only [countKey, mapDelete, List.length_eq_zero]
  rw [List.filter_eq_nil_iff]
  intro e he
  rcases List.mem_filter.mp he with ⟨_, hne⟩
  simpa using hne

lemma countKey_mapSet_self (m : ProcessMap) (k : String) (v : ProcessInfo) :
    countKey (mapSet m k v) k = 1 := by
  have h0 : List.filter (fun e => e.1 == k) (mapDelete m k) = [] := by
    have hc := countKey_mapDelete_self m k
    simpa [countKey, List.length_eq_zero] using hc
  unfold countKey mapSet
  rw [List.filter_cons]
  simp [h0]

lemma countKey_eq_zero_of_has_false {m : ProcessMap} {k : String}
    (h : mapHas m k = false) : countKey m k = 0 := by
  simp only [mapHas, List.any_eq_false] at h
  simp only [countKey, List.length_eq_zero]
  rw [List.filter_eq_nil_iff]
  exact h

lemma terminate_eq_delete {m : ProcessMap} {k : String} {info : ProcessInfo}
    (kill : Nat → KillOutcome) (hg : mapGet m k = some info) :
    terminateTrackedProcess m k kill = mapDelete m k := by
  unfold terminateTrackedProcess
  rw [hg]
  cases hk : kill info.pid <;> simp [hk]

lemma terminate_eq_keep {m : ProcessMap} {k : String}
    (kill : Nat → KillOutcome) (hg : mapGet m k = none) :
    terminateTrackedProcess m k kill = m := by
  unfold terminateTrackedProcess
  rw [hg]

lemma mapHas_terminate_self (m : ProcessMap) (k : String) (kill : Nat → KillOutcome) :
    mapHas (terminateTrackedProcess m k kill) k = false := by
  cases hg : mapGet m k with
  | none =>
    rw [terminate_eq_keep kill hg]
    exact mapHas_eq_false_of_get_none hg
  | some info =>
    rw [terminate_eq_delete kill hg]
    exact mapHas_mapDelete_self m k

lemma terminate_of_has_false {m : ProcessMap} {k : String} (kill : Nat → KillOutcome)
    (h : mapHas m k = false) : terminateTrackedProcess m k kill = m :=
  terminate_eq_keep kill (mapGet_eq_none_of_has_false h)

lemma terminate_kill_irrelevant (m : ProcessMap) (k : String)
    (kill1 kill2 : Nat → KillOutcome) :
    terminateTrackedProcess m k kill1 = terminateTrackedProcess m k kill2 := by
  cases hg : mapGet m k with
  | none => rw [terminate_eq_keep kill1 hg, terminate_eq_keep kill2 hg]
  | some info => rw [terminate_eq_delete kill1 hg, terminate_eq_delete kill2 hg]

/-- The guarded removal either leaves the registry alone or deletes the
key entirely. -/
lemma deleteIfSamePid_cases (m : ProcessMap) (k : String) (pid : Nat) :
    deleteIfSamePid m k pid = m ∨ deleteIfSamePid m k pid = mapDelete m k := by
  cases hg : mapGet m k with
  | none =>
    left
    unfold deleteIfSamePid
    rw [hg]
  | some info =>
    by_cases h : info.pid = pid
    · right
      unfold deleteIfSamePid
      rw [hg]
      simp [h]
    · left
      unfold deleteIfSamePid
      rw [hg]
      simp [h]

lemma deleteIfSamePid_of_other_pid {m : ProcessMap} {k : String} {pid : Nat}
    {r : ProcessInfo} (hget : mapGet m k = some r) (hpid : r.pid ≠ pid) :
    deleteIfSamePid m k pid = m := by
  unfold deleteIfSamePid
  rw [hget]
  simp [hpid]

lemma mapHas_deleteIfSamePid_false {m : ProcessMap} {k : String} (pid : Nat)
    (h : mapHas m k = false) : mapHas (deleteIfSamePid m k pid) k = false := by
  rcases deleteIfSamePid_cases m k pid with hc | hc <;> rw [hc]
  · exact h
  · exact mapHas_mapDelete_self m k

lemma countKey_deleteIfSamePid_le (m : ProcessMap) (k : String) (pid : Nat) :
    countKey (deleteIfSamePid m k pid) k ≤ countKey m k := by
  rcases deleteIfSamePid_cases m k pid with hc | hc
  · rw [hc]
  · rw [hc, countKey_mapDelete_self]
    exact Nat.zero_le _

lemma mapGet_deleteIfSamePid_sub {m : ProcessMap} {k : String} {pid : Nat}
    {r : ProcessInfo} (h : mapGet (deleteIfSamePid m k pid) k = some r) :
    mapGet m k = some r := by
  rcases deleteIfSamePid_cases m k pid with hc | hc
  · rwa [hc] at h
  · rw [hc, mapGet_mapDelete_self] at h
    cases h

/-! Helper lemmas about the detached state machine. -/

lemma runDetached_nil (r : String) (p : Nat) (c : String) (s : DetachedState) :
    runDetached r p c s [] = s := rfl

lemma runDetached_cons (r : String) (p : Nat) (c : String) (s : DetachedState)
    (e : DetachedEvent) (evs : List DetachedEvent) :
    runDetached r p c s (e :: evs) = runDetached r p c (stepEvent r p c s e) evs := rfl

lemma runDetached_append (r : String) (p : Nat) (c : String) (s : DetachedState)
    (evs1 evs2 : List DetachedEvent) :
    runDetached r p c s (evs1 ++ evs2) =
      runDetached r p c (runDetached r p c s evs1) evs2 := by
  unfold runDetached
  exact List.foldl_append _ _ _ _

/-- Once a resolution ran `clearTimeout` (or the timer fired) and
`cleanupListeners`, every further event is ignored: the state is frozen. -/
lemma stepEvent_frozen {s : DetachedState} (r : String) (p : Nat) (c : String)
    (e : DetachedEvent) (hl : s.listenersActive = false)
    (ht : s.timerActive = false) :
    stepEvent r p c s e = s := by
  cases e <;> simp [stepEvent, hl, ht]

lemma runDetached_frozen {s : DetachedState} (r : String) (p : Nat) (c : String)
    (evs : List DetachedEvent) (hl : s.listenersActive = false)
    (ht : s.timerActive = false) :
    runDetached r p c s evs = s := by
  induction evs with
  | nil => rfl
  | cons e rest ih =>
    rw [runDetached_cons, stepEvent_frozen r p c e hl ht]
    exact ih

/-- `resultSent` is never reset by any event. -/
lemma stepEvent_resultSent_mono {s : DetachedState} (r : String) (p : Nat)
    (c : String) (e : DetachedEvent) (h : s.resultSent = true) :
    (stepEvent r p c s e).resultSent = true := by
  cases e <;>
    simp [stepEvent, exitListenerBody, errorListenerBody, timerBody, h] <;>
    split <;> simp [h]

/-- After a resolution both `resultSent` and the cleared timer persist and
the resolved value never changes: later events are bookkeeping only. -/
lemma stepEvent_resolved_stable {s : DetachedState} (r : String) (p : Nat)
    (c : String) (e : DetachedEvent) (hr : s.resultSent = true)
    (ht : s.timerActive = false) :
    (stepEvent r p c s e).resultSent = true ∧
    (stepEvent r p c s e).timerActive = false ∧
    (stepEvent r p c s e).result = s.result ∧
    (stepEvent r p c s e).listenersActive = s.listenersActive := by
  cases e with
  | stdoutChunk ch => by_cases hl : s.listenersActive <;> simp [stepEvent, hl, hr, ht]
  | stderrChunk ch => by_cases hl : s.listenersActive <;> simp [stepEvent, hl, hr, ht]
  | exited code sig =>
    by_cases hl : s.listenersActive <;>
      simp [stepEvent, exitListenerBody, hl, hr, ht]
  | errored msg =>
    by_cases hl : s.listenersActive <;>
      simp [stepEvent, errorListenerBody, hl, hr, ht]
  | timerFired => simp [stepEvent, ht, hr]

lemma runDetached_resolved_stable {s : DetachedState} (r : String) (p : Nat)
    (c : String) (evs : List DetachedEvent) (hr : s.resultSent = true)
    (ht : s.timerActive = false) :
    (runDetached r p c s evs).resultSent = true ∧
    (runDetached r p c s evs).timerActive = false ∧
    (runDetached r p c s evs).result = s.result := by
  induction evs generalizing s with
  | nil => exact ⟨hr, ht, rfl⟩
  | cons e rest ih =>
    rw [runDetached_cons]
    obtain ⟨h1, h2, h3, _⟩ := stepEvent_resolved_stable r p c e hr ht
    obtain ⟨g1, g2, g3⟩ := ih h1 h2
    exact ⟨g1, g2, g3.trans h3⟩

/-- The mutual-exclusion invariant of the captured flags: the promise is
resolved exactly when the timer is no longer pending, an observed exit
implies a resolution, the listeners were removed exactly when a
resolution ran `cleanupListeners`, and a value was resolved exactly when
`resultSent` was flipped. -/
def DetachedInv (s : DetachedState) : Prop :=
  (s.resultSent = true ↔ s.timerActive = false) ∧
  (s.processExited = true → s.resultSent = true) ∧
  (s.resultSent = true ↔ s.listenersActive = false) ∧
  (s.result.isSome = true ↔ s.resultSent = true)

lemma detachedInv_initial (registry : ProcessMap) :
    DetachedInv (initialDetachedState registry) := by
  simp [DetachedInv, initialDetachedState]

lemma detachedInv_step {s : DetachedState} (r : String) (p : Nat) (c : String)
    (e : DetachedEvent) (h : DetachedInv s) :
    DetachedInv (stepEvent r p c s e) := by
  obtain ⟨h1, h2, h3, h4⟩ := h
  cases e with
  | stdoutChunk ch =>
    by_cases hl : s.listenersActive
    · have hstep : stepEvent r p c s (DetachedEvent.stdoutChunk ch) =
          { s with stdoutData := s.stdoutData ++ ch } := by simp [stepEvent, hl]
      rw [hstep]
      exact ⟨h1, h2, h3, h4⟩
    · have hstep : stepEvent r p c s (DetachedEvent.stdoutChunk ch) = s := by
        simp [stepEvent, hl]
      rw [hstep]
      exact ⟨h1, h2, h3, h4⟩
  | stderrChunk ch =>
    by_cases hl : s.listenersActive
    · have hstep : stepEvent r p c s (DetachedEvent.stderrChunk ch) =
          { s with stderrData := s.stderrData ++ ch } := by simp [stepEvent, hl]
      rw [hstep]
      exact ⟨h1, h2, h3, h4⟩
    · have hstep : stepEvent r p c s (DetachedEvent.stderrChunk ch) = s := by
        simp [stepEvent, hl]
      rw [hstep]
      exact ⟨h1, h2, h3, h4⟩
  | exited code sig =>
    by_cases hl : s.listenersActive
    · have hr : s.resultSent = false := by
        cases hrs : s.resultSent
        · rfl
        · exact absurd (h3.mp hrs) (by simp [hl])
      simp [stepEvent, exitListenerBody, hl, hr, DetachedInv]
    · have hstep : stepEvent r p c s (DetachedEvent.exited code sig) = s := by
        simp [stepEvent, hl]
      rw [hstep]
      exact ⟨h1, h2, h3, h4⟩
  | errored msg =>
    by_cases hl : s.listenersActive
    · have hr : s.resultSent = false := by
        cases hrs : s.resultSent
        · rfl
        · exact absurd (h3.mp hrs) (by simp [hl])
      simp [stepEvent, errorListenerBody, hl, hr, DetachedInv]
    · have hstep : stepEvent r p c s (DetachedEvent.errored msg) = s := by
        simp [stepEvent, hl]
      rw [hstep]
      exact ⟨h1, h2, h3, h4⟩
  | timerFired =>
    by_cases ht : s.timerActive
    · have hr : s.resultSent = false := by
        cases hrs : s.resultSent
        · rfl
        · exact absurd (h1.mp hrs) (by simp [ht])
      have hp : s.processExited = false := by
        cases hps : s.processExited
        · rfl
        · rw [h2 hps] at hr
          cases hr
      simp [stepEvent, timerBody, ht, hr, hp, DetachedInv]
    · have hstep : stepEvent r p c s DetachedEvent.timerFired = s := by
        simp [stepEvent, ht]
      rw [hstep]
      exact ⟨h1, h2, h3, h4⟩

lemma detachedInv_run {s : DetachedState} (r : String) (p : Nat) (c : String)
    (evs : List DetachedEvent) (h : DetachedInv s) :
    DetachedInv (runDetached r p c s evs) := by
  induction evs generalizing s with
  | nil => exact h
  | cons e rest ih =>
    rw [runDetached_cons]
    exact ih (detachedInv_step r p c e h)

/-- Processing any non-data event (exit, error, timer) leaves the machine
resolved. -/
lemma stepEvent_nondata_resolves {s : DetachedState} (r : String) (p : Nat)
    (c : String) (e : DetachedEvent) (h : DetachedInv s)
    (he : isDataEvent e = false) :
    (stepEvent r p c s e).resultSent = true := by
  obtain ⟨h1, h2, h3, _⟩ := h
  cases e with
  | stdoutChunk ch => cases he
  | stderrChunk ch => cases he
  | exited code sig =>
    by_cases hl : s.listenersActive
    · by_cases hr : s.resultSent <;> simp [stepEvent, exitListenerBody, hl, hr]
    · have hls : s.listenersActive = false := by simpa using hl
      simp [stepEvent, hl, h3.mpr hls]
  | errored msg =>
    by_cases hl : s.listenersActive
    · by_cases hr : s.resultSent <;> simp [stepEvent, errorListenerBody, hl, hr]
    · have hls : s.listenersActive = false := by simpa using hl
      simp [stepEvent, hl, h3.mpr hls]
  | timerFired =>
    by_cases ht : s.timerActive
    · have hr : s.resultSent = false := by
        cases hrs : s.resultSent
        · rfl
        · exact absurd (h1.mp hrs) (by simp [ht])
      have hp : s.processExited = false := by
        cases hps : s.processExited
        · rfl
        · rw [h2 hps] at hr
          cases hr
      simp [stepEvent, timerBody, ht, hr, hp]
    · have hts : s.timerActive = false := by simpa using ht
      simp [stepEvent, ht, h1.mpr hts]

/-- Shape of the registry after one event: unchanged, reduced by the
pid-guarded removal (possibly twice, mirroring the duplicated check in
the exit listener), or overwritten by the tracking insertion of the
timer callback. -/
lemma stepEvent_registry_cases (r : String) (p : Nat) (c : String)
    (s : DetachedState) (e : DetachedEvent) :
    (stepEvent r p c s e).registry = s.registry ∨
    (stepEvent r p c s e).registry = deleteIfSamePid s.registry r p ∨
    (stepEvent r p c s e).registry =
      deleteIfSamePid (deleteIfSamePid s.registry r p) r p ∨
    (stepEvent r p c s e).registry = mapSet s.registry r ⟨p, c⟩ := by
  cases e with
  | stdoutChunk ch => by_cases hl : s.listenersActive <;> simp [stepEvent, hl]
  | stderrChunk ch => by_cases hl : s.listenersActive <;> simp [stepEvent, hl]
  | exited code sig =>
    by_cases hl : s.listenersActive
    · by_cases hr : s.resultSent <;>
        simp [stepEvent, exitListenerBody, hl, hr]
    · simp [stepEvent, hl]
  | errored msg =>
    by_cases hl : s.listenersActive
    · by_cases hr : s.resultSent <;>
        simp [stepEvent, errorListenerBody, hl, hr]
    · simp [stepEvent, hl]
  | timerFired =>
    by_cases ht : s.timerActive
    · by_cases hg : (s.processExited || s.resultSent) = true
      · simp [stepEvent, timerBody, ht, hg]
      · by_cases hc : (classifyOutput s.stdoutData s.stderrData).1 <;>
          simp [stepEvent, timerBody, ht, hg, hc]
    · simp [stepEvent, ht]

/-- While the promise is already resolved, no event ever inserts into the
registry: the timer callback returns at once, and the listeners at most
perform the pid-guarded removal. -/
lemma stepEvent_registry_cases_resolved (r : String) (p : Nat) (c : String)
    (s : DetachedState) (e : DetachedEvent) (hr : s.resultSent = true) :
    (stepEvent r p c s e).registry = s.registry ∨
    (stepEvent r p c s e).registry = deleteIfSamePid s.registry r p ∨
    (stepEvent r p c s e).registry =
      deleteIfSamePid (deleteIfSamePid s.registry r p) r p := by
  cases e with
  | stdoutChunk ch => by_cases hl : s.listenersActive <;> simp [stepEvent, hl]
  | stderrChunk ch => by_cases hl : s.listenersActive <;> simp [stepEvent, hl]
  | exited code sig =>
    by_cases hl : s.listenersActive
    · simp [stepEvent, exitListenerBody, hl, hr]
    · simp [stepEvent, hl]
  | errored msg =>
    by_cases hl : s.listenersActive
    · simp [stepEvent, errorListenerBody, hl, hr]
    · simp [stepEvent, hl]
  | timerFired =>
    by_cases ht : s.timerActive
    · simp [stepEvent, timerBody, ht, hr]
    · simp [stepEvent, ht]

/-- A resolved invocation that no longer tracks `r` never re-acquires it. -/
lemma runDetached_resolved_has_false {s : DetachedState} (r : String) (p : Nat)
    (c : String) (evs : List DetachedEvent) (hr : s.resultSent = true)
    (hh : mapHas s.registry r = false) :
    mapHas (runDetached r p c s evs).registry r = false := by
  induction evs generalizing s with
  | nil => exact hh
  | cons e rest ih =>
    rw [runDetached_cons]
    refine ih (stepEvent_resultSent_mono r p c e hr) ?_
    rcases stepEvent_registry_cases_resolved r p c s e hr with hc | hc | hc <;>
      rw [hc]
    · exact hh
    · exact mapHas_deleteIfSamePid_false p hh
    · exact mapHas_deleteIfSamePid_false p (mapHas_deleteIfSamePid_false p hh)

/-- Per-key multiplicity never exceeds one once it is at most one. -/
lemma stepEvent_countKey_le_one (r : String) (p : Nat) (c : String)
    (s : DetachedState) (e : DetachedEvent)
    (h : countKey s.registry r ≤ 1) :
    countKey (stepEvent r p c s e).registry r ≤ 1 := by
  rcases stepEvent_registry_cases r p c s e with hc | hc | hc | hc <;> rw [hc]
  · exact h
  · exact le_trans (countKey_deleteIfSamePid_le _ _ _) h
  · exact le_trans (countKey_deleteIfSamePid_le _ _ _)
      (le_trans (countKey_deleteIfSamePid_le _ _ _) h)
  · rw [countKey_mapSet_self]

lemma runDetached_countKey_le_one {s : DetachedState} (r : String) (p : Nat)
    (c : String) (evs : List DetachedEvent)
    (h : countKey s.registry r ≤ 1) :
    countKey (runDetached r p c s evs).registry r ≤ 1 := by
  induction evs generalizing s with
  | nil => exact h
  | cons e rest ih =>
    rw [runDetached_cons]
    exact ih (stepEvent_countKey_le_one r p c s e h)

/-- Whatever the registry stores for this key was either there before the
event or is the record registered by this invocation. -/
lemma stepEvent_get_id (r : String) (p : Nat) (c : String)
    (s : DetachedState) (e : DetachedEvent)
    (h : ∀ rec, mapGet s.registry r = some rec → rec = ⟨p, c⟩) :
    ∀ rec, mapGet (stepEvent r p c s e).registry r = some rec → rec = ⟨p, c⟩ := by
  intro rec hrec
  rcases stepEvent_registry_cases r p c s e with hc | hc | hc | hc <;>
    rw [hc] at hrec
  · exact h rec hrec
  · exact h rec (mapGet_deleteIfSamePid_sub hrec)
  · exact h rec (mapGet_deleteIfSamePid_sub (mapGet_deleteIfSamePid_sub hrec))
  · rw [mapGet_mapSet_self] at hrec
    exact (Option.some_injective _ hrec).symm

lemma runDetached_get_id {s : DetachedState} (r : String) (p : Nat) (c : String)
    (evs : List DetachedEvent)
    (h : ∀ rec, mapGet s.registry r = some rec → rec = ⟨p, c⟩) :
    ∀ rec, mapGet (runDetached r p c s evs).registry r = some rec →
      rec = ⟨p, c⟩ := by
  induction evs generalizing s with
  | nil => exact h
  | cons e rest ih =>
    rw [runDetached_cons]
    exact ih (stepEvent_get_id r p c s e h)

/-- Feeding only output events accumulates the chunks into the buffers
and leaves every other component of the state alone. -/
lemma runDetached_data_only (r : String) (p : Nat) (c : String)
    (evs : List DetachedEvent) :
    ∀ s : DetachedState, s.listenersActive = true →
      (∀ e ∈ evs, isDataEvent e = true) →
      runDetached r p c s evs =
        { s with stdoutData := s.stdoutData ++ stdoutOf evs,
                 stderrData := s.stderrData ++ stderrOf evs } := by
  induction evs with
  | nil =>
    intro s hl _
    rw [runDetached_nil]
    rw [show stdoutOf [] = "" from rfl, show stderrOf [] = "" from rfl,
      str_append_empty, str_append_empty]
  | cons e rest ih =>
    intro s hl hdata
    cases e with
    | stdoutChunk ch =>
      rw [runDetached_cons]
      have hstep : stepEvent r p c s (DetachedEvent.stdoutChunk ch) =
          { s with stdoutData := s.stdoutData ++ ch } := by simp [stepEvent, hl]
      rw [hstep,
        ih { s with stdoutData := s.stdoutData ++ ch } hl
          (fun x hx => hdata x (List.mem_cons_of_mem _ hx))]
      rw [show stdoutOf (DetachedEvent.stdoutChunk ch :: rest) =
            ch ++ stdoutOf rest from rfl,
        show stderrOf (DetachedEvent.stdoutChunk ch :: rest) =
            stderrOf rest from rfl]
      rw [← str_append_assoc]
    | stderrChunk ch =>
      rw [runDetached_cons]
      have hstep : stepEvent r p c s (DetachedEvent.stderrChunk ch) =
          { s with stderrData := s.stderrData ++ ch } := by simp [stepEvent, hl]
      rw [hstep,
        ih { s with stderrData := s.stderrData ++ ch } hl
          (fun x hx => hdata x (List.mem_cons_of_mem _ hx))]
      rw [show stdoutOf (DetachedEvent.stderrChunk ch :: rest) =
            stdoutOf rest from rfl,
        show stderrOf (DetachedEvent.stderrChunk ch :: rest) =
            ch ++ stderrOf rest from rfl]
      rw [← str_append_assoc]
    | exited code sig => exact absurd (hdata _ (List.mem_cons_self _ _)) (by simp [isDataEvent])
    | errored msg => exact absurd (hdata _ (List.mem_cons_self _ _)) (by simp [isDataEvent])
    | timerFired => exact absurd (hdata _ (List.mem_cons_self _ _)) (by simp [isDataEvent])

/-! Helper lemmas for the bulk cleanup. -/

lemma mem_terminate_sub {m : ProcessMap} {k : String} {kill : Nat → KillOutcome}
    {e : String × ProcessInfo} (h : e ∈ terminateTrackedProcess m k kill) :
    e ∈ m := by
  cases hg : mapGet m k with
  | none =>
    rw [terminate_eq_keep kill hg] at h
    exact h
  | some info =>
    rw [terminate_eq_delete kill hg] at h
    exact (List.mem_filter.mp h).1

lemma mapHas_of_mem {m : ProcessMap} {e : String × ProcessInfo} (h : e ∈ m) :
    mapHas m e.1 = true := by
  simp only [mapHas, List.any_eq_true]
  exact ⟨e, h, by simp⟩

lemma mapHas_terminate_preserved_false {m : ProcessMap} {k k2 : String}
    {kill : Nat → KillOutcome} (h : mapHas m k2 = false) :
    mapHas (terminateTrackedProcess m k kill) k2 = false := by
  cases hh : mapHas (terminateTrackedProcess m k kill) k2 with
  | false => rfl
  | true =>
    simp only [mapHas, List.any_eq_true] at hh
    obtain ⟨e, he, hk⟩ := hh
    have hm := mapHas_of_mem (mem_terminate_sub he)
    have hk2 : e.1 = k2 := by simpa using hk
    rw [hk2] at hm
    rw [hm] at h
    cases h

lemma foldl_terminate_preserved_false {keys : List String} {m : ProcessMap}
    {k2 : String} {kill : Nat → KillOutcome} (h : mapHas m k2 = false) :
    mapHas (keys.foldl (fun r key => terminateTrackedProcess r key kill) m) k2
      = false := by
  induction keys generalizing m with
  | nil => exact h
  | cons k rest ih => exact ih (mapHas_terminate_preserved_false h)

lemma foldl_terminate_clears {keys : List String} {m : ProcessMap}
    {kill : Nat → KillOutcome} {k2 : String} (h : k2 ∈ keys) :
    mapHas (keys.foldl (fun r key => terminateTrackedProcess r key kill) m) k2
      = false := by
  induction keys generalizing m with
  | nil => cases h
  | cons k rest ih =>
    rcases List.mem_cons.mp h with hk | hk
    · subst hk
      rw [List.foldl_cons]
      exact foldl_terminate_preserved_false (mapHas_terminate_self m k2 kill)
    · exact ih hk

lemma mem_foldl_terminate_sub {keys : List String} {m : ProcessMap}
    {kill : Nat → KillOutcome} {e : String × ProcessInfo}
    (h : e ∈ keys.foldl (fun r key => terminateTrackedProcess r key kill) m) :
    e ∈ m := by
  induction keys generalizing m with
  | nil => exact h
  | cons k rest ih => exact mem_terminate_sub (ih h)

/-! Helper lemmas for the port-extraction heuristic. -/

lemma takeDigits_all_digits (cs : List Char) :
    (takeDigits cs).all Char.isDigit = true := by
  induction cs with
  | nil => rfl
  | cons c rest ih =>
    unfold takeDigits
    by_cases hd : c.isDigit <;> simp [hd, ih]

lemma capturePort_spec {cs : List Char} {p : String}
    (h : capturePort cs = some p) :
    (p.length = 4 ∨ p.length = 5) ∧ p.data.all Char.isDigit = true := by
  unfold capturePort at h
  by_cases hlen : 4 ≤ (takeDigits cs).length
  · rw [if_pos hlen] at h
    have hp : p = ⟨(takeDigits cs).take 5⟩ := (Option.some_injective _ h).symm
    subst hp
    constructor
    · show ((takeDigits cs).take 5).length = 4 ∨ ((takeDigits cs).take 5).length = 5
      rw [List.length_take]
      omega
    · show ((takeDigits cs).take 5).all Char.isDigit = true
      rw [List.all_eq_true]
      intro x hx
      exact (List.all_eq_true.mp (takeDigits_all_digits cs)) x
        (List.take_subset 5 (takeDigits cs) hx)
  · rw [if_neg hlen] at h
    cases h

lemma matchPortAt_spec {cs : List Char} {p : String}
    (h : matchPortAt cs = some p) :
    (p.length = 4 ∨ p.length = 5) ∧ p.data.all Char.isDigit = true := by
  unfold matchPortAt at h
  split at h
  · exact capturePort_spec h
  · split at h
    · exact capturePort_spec h
    · split at h
      · exact capturePort_spec h
      · split at h
        · exact capturePort_spec h
        · cases h

lemma findPortList_spec {cs : List Char} {p : String}
    (h : findPortList cs = some p) :
    (p.length = 4 ∨ p.length = 5) ∧ p.data.all Char.isDigit = true := by
  induction cs with
  | nil => cases h
  | cons c rest ih =>
    rw [findPortList] at h
    cases hm : matchPortAt (c :: rest) with
    | some q =>
      rw [hm] at h
      simp only at h
      have : q = p := by simpa using h
      subst this
      exact matchPortAt_spec hm
    | none =>
      rw [hm] at h
      simp only at h
      exact ih h

lemma findPort_spec {s : String} {p : String} (h : findPort s = some p) :
    (p.length = 4 ∨ p.length = 5) ∧ p.data.all Char.isDigit = true :=
  findPortList_spec h

lemma deleteIfSamePid_of_has_false {m : ProcessMap} {k : String} (pid : Nat)
    (h : mapHas m k = false) : deleteIfSamePid m k pid = m := by
  unfold deleteIfSamePid
  rw [mapGet_eq_none_of_has_false h]

lemma runDetached_resultSent_mono {s : DetachedState} (r : String) (p : Nat)
    (c : String) (evs : List DetachedEvent) (h : s.resultSent = true) :
    (runDetached r p c s evs).resultSent = true := by
  induction evs generalizing s with
  | nil => exact h
  | cons e rest ih =>
    rw [runDetached_cons]
    exact ih (stepEvent_resultSent_mono r p c e h)

lemma runDetached_nondata_resolves {s : DetachedState} (r : String) (p : Nat)
    (c : String) (evs : List DetachedEvent) (h : DetachedInv s)
    (he : ∃ e ∈ evs, isDataEvent e = false) :
    (runDetached r p c s evs).resultSent = true := by
  induction evs generalizing s with
  | nil =>
    obtain ⟨e, he0, _⟩ := he
    cases he0
  | cons e rest ih =>
    rw [runDetached_cons]
    obtain ⟨x, hx, hnd⟩ := he
    rcases List.mem_cons.mp hx with hx1 | hx2
    · subst hx1
      exact runDetached_resultSent_mono r p c rest
        (stepEvent_nondata_resolves r p c x h hnd)
    · exact ih (detachedInv_step r p c e h) ⟨x, hx2, hnd⟩

/-- C3: a synchronous execute succeeds exactly when the child exited with
code 0 and did not time out, and a run that exceeded its timeout budget
is always classified TimedOut with success = false, whatever the exit
code (including 0). -/
theorem sync_success_iff_exit_zero_no_timeout (res : ExecaResult) :
    ((executeCommandSync res).success = true ↔
      (res.exitCode = some 0 ∧ res.timedOut = false)) ∧
    (res.timedOut = true →
      (executeCommandSync res).kind = SyncKind.timedOutKind ∧
      (executeCommandSync res).success = false) := by
  unfold executeCommandSync
  by_cases ht : res.timedOut <;> simp [ht]

/-- Witness for C3: a run with exit code 0 that timed out is TimedOut
and unsuccessful. -/
theorem sync_success_iff_exit_zero_no_timeout_witness :
    (executeCommandSync ⟨some 0, true, none, "", ""⟩).kind = SyncKind.timedOutKind ∧
    (executeCommandSync ⟨some 0, true, none, "", ""⟩).success = false :=
  (sync_success_iff_exit_zero_no_timeout ⟨some 0, true, none, "", ""⟩).2 rfl

/-- C4: retire removes the registry entry for the key unconditionally (it
is gone afterwards whatever the signal delivery did, as the result does
not depend on the kill outcome at all), and an absent key is a no-op
leaving the registry unchanged; the embedding is a total function, so
the operation never raises. -/
theorem retire_unconditional_removal (m : ProcessMap) (k : String)
    (kill : Nat → KillOutcome) :
    mapHas (terminateTrackedProcess m k kill) k = false ∧
    (mapHas m k = false → terminateTrackedProcess m k kill = m) ∧
    (∀ kill2, terminateTrackedProcess m k kill =
      terminateTrackedProcess m k kill2) :=
  ⟨mapHas_terminate_self m k kill,
   fun h => terminate_of_has_false kill h,
   fun kill2 => terminate_kill_irrelevant m k kill kill2⟩

/-- Witness for C4: retiring an absent key leaves the registry unchanged,
and retiring a present key whose signal delivery fails with a non-ESRCH
error still removes the entry. -/
theorem retire_unconditional_removal_witness :
    terminateTrackedProcess [("other", ⟨9, "npm run dev"⟩)] "k"
      (fun _ => KillOutcome.ok) = [("other", ⟨9, "npm run dev"⟩)] ∧
    mapHas (terminateTrackedProcess [("a", ⟨5, "npm start"⟩)] "a"
      (fun _ => KillOutcome.otherError "EPERM")) "a" = false :=
  ⟨(retire_unconditional_removal [("other", ⟨9, "npm run dev"⟩)] "k"
      (fun _ => KillOutcome.ok)).2.1 (by decide),
   (retire_unconditional_removal [("a", ⟨5, "npm start"⟩)] "a"
      (fun _ => KillOutcome.otherError "EPERM")).1⟩

/-- C7: once the start has resolved, an exit event only ever removes the
registry entry for the workspace key when that entry still records the
exiting child process id; an exit of a superseded process never deletes
an entry that now points at a different pid. -/
theorem stale_exit_never_deletes_other_pid (repoPath : String) (pid : Nat)
    (cmd : String) (s : DetachedState) (code : Option Int) (sig : Option String)
    (info : ProcessInfo) (hres : s.resultSent = true)
    (hget : mapGet s.registry repoPath = some info) (hpid : info.pid ≠ pid) :
    mapGet (stepEvent repoPath pid cmd s
      (DetachedEvent.exited code sig)).registry repoPath = some info := by
  have hd : deleteIfSamePid s.registry repoPath pid = s.registry :=
    deleteIfSamePid_of_other_pid hget hpid
  by_cases hl : s.listenersActive
  · simp [stepEvent, exitListenerBody, hl, hres, hd, hget]
  · simp [stepEvent, hl, hget]

/-- Witness for C7: an exit event of pid 9 leaves the entry that now
records pid 7 untouched. -/
theorem stale_exit_never_deletes_other_pid_witness :
    mapGet (stepEvent "k" 9 "npm start"
      { stdoutData := "", stderrData := "", processExited := false,
        exitCode := none, resultSent := true, timerActive := false,
        listenersActive := false, registry := [("k", ⟨7, "npm run dev"⟩)],
        result := none }
      (DetachedEvent.exited (some 0) none)).registry "k" =
      some ⟨7, "npm run dev"⟩ :=
  stale_exit_never_deletes_other_pid "k" 9 "npm start" _ (some 0) none
    ⟨7, "npm run dev"⟩ rfl (by decide) (by decide)

/-- C9: the bulk cleanup attempts a retire on exactly the snapshot of all
registered keys, and afterwards the registry is empty, so the reported
remaining count is zero: it can be non-zero only if a non-absence signal
failure occurred, vacuously, because removal is unconditional. -/
theorem bulk_cleanup_attempts_all_and_clears (m : ProcessMap)
    (kill : Nat → KillOutcome) :
    (cleanupAllTrackedProcesses m kill).2 = m.map (fun e => e.1) ∧
    (cleanupAllTrackedProcesses m kill).1 = [] := by
  have hdef : (cleanupAllTrackedProcesses m kill).1 =
      (m.map fun e => e.1).foldl
        (fun r repoPath => terminateTrackedProcess r repoPath kill) m := rfl
  refine ⟨rfl, ?_⟩
  rw [hdef, List.eq_nil_iff_forall_not_mem]
  intro e he
  have h1 : e ∈ m := mem_foldl_terminate_sub he
  have hkey : e.1 ∈ m.map (fun x => x.1) := List.mem_map_of_mem _ h1
  have hfalse := @foldl_terminate_clears (m.map fun x => x.1) m kill e.1 hkey
  have htrue := mapHas_of_mem he
  rw [htrue] at hfalse
  cases hfalse

/-- C10: the port heuristic only ever extracts a port of exactly four or
five digits, and output announcing a shorter port such as "listening on
port 80" yields no detected port even though the readiness-phrase
heuristic still confirms the startup. -/
theorem port_heuristic_digit_bounds :
    (∀ s p, findPort s = some p →
      (p.length = 4 ∨ p.length = 5) ∧ p.data.all Char.isDigit = true) ∧
    classifyOutput "listening on port 80" "" = (true, none) :=
  ⟨fun _ _ h => findPort_spec h, by decide⟩

/-- Witness for C10: the port extracted from a localhost address has
exactly four digits. -/
theorem port_heuristic_digit_bounds_witness :
    (("4321" : String).length = 4 ∨ ("4321" : String).length = 5) ∧
    ("4321" : String).data.all Char.isDigit = true :=
  port_heuristic_digit_bounds.1 "localhost:4321" "4321" (by decide)

lemma tailSlice_length_le (s : String) (n : Nat) : (tailSlice s n).length ≤ n := by
  show (s.data.drop (s.data.length - n)).length ≤ n
  rw [List.length_drop]
  omega

lemma stdoutOf_map_chunks (chunks : List String) :
    (stdoutOf (chunks.map DetachedEvent.stdoutChunk)).length =
      (chunks.map String.length).sum := by
  induction chunks with
  | nil => rfl
  | cons c rest ih =>
    rw [List.map_cons,
      show stdoutOf (DetachedEvent.stdoutChunk c :: rest.map DetachedEvent.stdoutChunk)
        = c ++ stdoutOf (rest.map DetachedEvent.stdoutChunk) from rfl,
      str_length_append, ih, List.map_cons, List.sum_cons]

/-- C8 (amended): during capture every output chunk is appended in full,
so the observation buffer length equals the total output length and is
not trimmed while the window is open; the fixed bound halfMax = 2000
applies only to the stdout/stderr tails included in the reported result. -/
theorem capture_appends_in_full_tails_bounded (repoPath : String) (pid : Nat)
    (cmd : String) (registry : ProcessMap) (chunks : List String) :
    ((runDetached repoPath pid cmd (initialDetachedState registry)
        (chunks.map DetachedEvent.stdoutChunk)).stdoutData).length =
      (chunks.map String.length).sum ∧
    ∀ s : String, (tailSlice s halfMax).length ≤ halfMax := by
  constructor
  · have hdata : ∀ e ∈ chunks.map DetachedEvent.stdoutChunk, isDataEvent e = true := by
      intro e he
      obtain ⟨c, _, hc⟩ := List.mem_map.mp he
      rw [← hc]
      rfl
    rw [runDetached_data_only repoPath pid cmd (chunks.map DetachedEvent.stdoutChunk)
        (initialDetachedState registry) rfl hdata]
    show (("" : String) ++ stdoutOf (chunks.map DetachedEvent.stdoutChunk)).length = _
    rw [str_empty_append, stdoutOf_map_chunks]
  · intro s
    exact tailSlice_length_le s halfMax

/-- C8 counterexample: there is no fixed bound that the observation
buffer respects during capture; for every candidate bound a single large
chunk already exceeds it while the window is still open. -/
theorem capture_buffer_no_fixed_bound :
    ¬ ∃ B : Nat, ∀ chunks : List String,
      ((runDetached "k" 1 "c" (initialDetachedState [])
          (chunks.map DetachedEvent.stdoutChunk)).stdoutData).length ≤ B := by
  rintro ⟨B, h⟩
  have hB := h [⟨List.replicate (B + 1) 'a'⟩]
  have hlen : ((runDetached "k" 1 "c" (initialDetachedState [])
      ([(⟨List.replicate (B + 1) 'a'⟩ : String)].map DetachedEvent.stdoutChunk)).stdoutData).length
      = B + 1 := by
    rw [List.map_cons, List.map_nil, runDetached_cons, runDetached_nil]
    have hstep : stepEvent "k" 1 "c" (initialDetachedState [])
        (DetachedEvent.stdoutChunk ⟨List.replicate (B + 1) 'a'⟩) =
        { initialDetachedState [] with
          stdoutData := ("" : String) ++ ⟨List.replicate (B + 1) 'a'⟩ } := by
      simp [stepEvent, initialDetachedState]
    rw [hstep]
    show (("" : String) ++ ⟨List.replicate (B + 1) 'a'⟩).length = B + 1
    rw [str_empty_append]
    show (List.replicate (B + 1) 'a').length = B + 1
    rw [List.length_replicate]
  rw [hlen] at hB
  omega

/-- C5: before the new child of a second long-running request for the
same key spawns, the retire has already removed the previous occupant
from the registry; throughout the second run the registry never holds
two entries for the key; and any record the registry ends up holding for
the key is the second request record, which thus superseded the first. -/
theorem sequential_starts_single_occupant (registry : ProcessMap)
    (repoPath : String) (kill1 : Nat → KillOutcome) (pid1 : Nat) (cmd1 : String)
    (evs1 : List DetachedEvent) (kill2 : Nat → KillOutcome) (pid2 : Nat)
    (cmd2 : String) (evs2 : List DetachedEvent) :
    mapHas (terminateTrackedProcess
        (executeCommandLongRunning registry repoPath kill1 pid1 cmd1 evs1).registry
        repoPath kill2) repoPath = false ∧
    (∀ p q, evs2 = p ++ q →
      countKey (executeCommandLongRunning
          (executeCommandLongRunning registry repoPath kill1 pid1 cmd1 evs1).registry
          repoPath kill2 pid2 cmd2 p).registry repoPath ≤ 1) ∧
    (∀ info, mapGet (executeCommandLongRunning
          (executeCommandLongRunning registry repoPath kill1 pid1 cmd1 evs1).registry
          repoPath kill2 pid2 cmd2 evs2).registry repoPath = some info →
      info = ⟨pid2, cmd2⟩) := by
  have hretire := mapHas_terminate_self
    (executeCommandLongRunning registry repoPath kill1 pid1 cmd1 evs1).registry
    repoPath kill2
  refine ⟨hretire, ?_, ?_⟩
  · intro p q _
    have h0 : countKey (terminateTrackedProcess
        (executeCommandLongRunning registry repoPath kill1 pid1 cmd1 evs1).registry
        repoPath kill2) repoPath ≤ 1 := by
      rw [countKey_eq_zero_of_has_false hretire]
      omega
    exact runDetached_countKey_le_one repoPath pid2 cmd2 p h0
  · intro info
    have h0 : ∀ info0, mapGet (terminateTrackedProcess
        (executeCommandLongRunning registry repoPath kill1 pid1 cmd1 evs1).registry
        repoPath kill2) repoPath = some info0 → info0 = ⟨pid2, cmd2⟩ := by
      intro info0 hinfo0
      rw [mapGet_eq_none_of_has_false hretire] at hinfo0
      cases hinfo0
    exact runDetached_get_id repoPath pid2 cmd2 evs2 h0 info

/-- Witness for C5: two concrete confirmed starts for the same key leave
exactly one entry, which records the second pid and command. -/
theorem sequential_starts_single_occupant_witness :
    countKey (executeCommandLongRunning
        (executeCommandLongRunning [] "k" (fun _ => KillOutcome.ok) 7 "npm start"
          [DetachedEvent.stdoutChunk "ready on localhost:3000",
           DetachedEvent.timerFired]).registry
        "k" (fun _ => KillOutcome.ok) 8 "npm run dev"
        [DetachedEvent.stdoutChunk "server started",
         DetachedEvent.timerFired]).registry "k" ≤ 1 ∧
    (⟨8, "npm run dev"⟩ : ProcessInfo) = ⟨8, "npm run dev"⟩ :=
  ⟨(sequential_starts_single_occupant [] "k" (fun _ => KillOutcome.ok) 7
      "npm start"
      [DetachedEvent.stdoutChunk "ready on localhost:3000",
       DetachedEvent.timerFired]
      (fun _ => KillOutcome.ok) 8 "npm run dev"
      [DetachedEvent.stdoutChunk "server started",
       DetachedEvent.timerFired]).2.1
    [DetachedEvent.stdoutChunk "server started", DetachedEvent.timerFired] []
    (by simp),
   (sequential_starts_single_occupant [] "k" (fun _ => KillOutcome.ok) 7
      "npm start"
      [DetachedEvent.stdoutChunk "ready on localhost:3000",
       DetachedEvent.timerFired]
      (fun _ => KillOutcome.ok) 8 "npm run dev"
      [DetachedEvent.stdoutChunk "server started",
       DetachedEvent.timerFired]).2.2 ⟨8, "npm run dev"⟩ (by decide)⟩

/-- C6: a detached start resolves at most once, regardless of the order
in which the timer, the exit event and the error event fire: once a
result exists, later events never change it, and as soon as any
resolution event occurred a result exists. -/
theorem detached_resolves_exactly_once (registry : ProcessMap)
    (repoPath : String) (kill : Nat → KillOutcome) (pid : Nat) (cmd : String)
    (evs extra : List DetachedEvent) :
    ((executeCommandLongRunning registry repoPath kill pid cmd evs).result.isSome
        = true →
      (executeCommandLongRunning registry repoPath kill pid cmd
          (evs ++ extra)).result =
        (executeCommandLongRunning registry repoPath kill pid cmd evs).result) ∧
    ((∃ e ∈ evs, isDataEvent e = false) →
      (executeCommandLongRunning registry repoPath kill pid cmd evs).result.isSome
        = true) := by
  have hinv : DetachedInv (executeCommandLongRunning registry repoPath kill
      pid cmd evs) :=
    detachedInv_run repoPath pid cmd evs (detachedInv_initial _)
  constructor
  · intro hsome
    have hr := hinv.2.2.2.mp hsome
    have ht := hinv.1.mp hr
    show (runDetached repoPath pid cmd (initialDetachedState _) (evs ++ extra)).result = _
    rw [runDetached_append]
    exact (runDetached_resolved_stable repoPath pid cmd extra hr ht).2.2
  · intro he
    exact hinv.2.2.2.mpr
      (runDetached_nondata_resolves repoPath pid cmd evs
        (detachedInv_initial _) he)

/-- Witness for C6: after an early exit, a late timer fire and late
output change nothing, and the early exit did resolve the start. -/
theorem detached_resolves_exactly_once_witness :
    (executeCommandLongRunning [] "k" (fun _ => KillOutcome.ok) 7 "npm start"
        ([DetachedEvent.exited (some 1) none] ++
          [DetachedEvent.timerFired, DetachedEvent.stdoutChunk "late"])).result =
      (executeCommandLongRunning [] "k" (fun _ => KillOutcome.ok) 7 "npm start"
        [DetachedEvent.exited (some 1) none]).result ∧
    (executeCommandLongRunning [] "k" (fun _ => KillOutcome.ok) 7 "npm start"
        [DetachedEvent.exited (some 1) none]).result.isSome = true :=
  ⟨(detached_resolves_exactly_once [] "k" (fun _ => KillOutcome.ok) 7
      "npm start" [DetachedEvent.exited (some 1) none]
      [DetachedEvent.timerFired, DetachedEvent.stdoutChunk "late"]).1 (by decide),
   (detached_resolves_exactly_once [] "k" (fun _ => KillOutcome.ok) 7
      "npm start" [DetachedEvent.exited (some 1) none]
      [DetachedEvent.timerFired, DetachedEvent.stdoutChunk "late"]).2
     ⟨DetachedEvent.exited (some 1) none, by simp, rfl⟩⟩

/-- A run of output events only, from the fresh post-spawn state: the
chunks accumulate and nothing else changes. -/
lemma run_data_from_initial (r : String) (p : Nat) (c : String)
    (reg : ProcessMap) (evs : List DetachedEvent)
    (hdata : ∀ e ∈ evs, isDataEvent e = true) :
    runDetached r p c (initialDetachedState reg) evs =
      { stdoutData := stdoutOf evs, stderrData := stderrOf evs,
        processExited := false, exitCode := none, resultSent := false,
        timerActive := true, listenersActive := true, registry := reg,
        result := none } := by
  rw [runDetached_data_only r p c evs (initialDetachedState reg) rfl hdata]
  show ({ initialDetachedState reg with
      stdoutData := ("" : String) ++ stdoutOf evs,
      stderrData := ("" : String) ++ stderrOf evs } : DetachedState) = _
  rw [str_empty_append, str_empty_append]
  rfl

/-- The timer callback on a fresh (unresolved, not exited) state with
buffered output: classify, register on success, resolve. -/
lemma timer_fire_fresh (r : String) (p : Nat) (c : String) (reg : ProcessMap)
    (so se : String) :
    stepEvent r p c
      { stdoutData := so, stderrData := se, processExited := false,
        exitCode := none, resultSent := false, timerActive := true,
        listenersActive := true, registry := reg, result := none }
      DetachedEvent.timerFired =
      { stdoutData := so, stderrData := se, processExited := false,
        exitCode := none, resultSent := true, timerActive := false,
        listenersActive := false,
        registry := if (classifyOutput so se).1 then mapSet reg r ⟨p, c⟩ else reg,
        result := some (timerResult p (classifyOutput so se).1
          (classifyOutput so se).2 so se) } := by
  simp [stepEvent, timerBody]

/-- The exit listener on a fresh state whose registry does not track the
key: classify the early exit, resolve, registry untouched. -/
lemma exit_fire_fresh (r : String) (p : Nat) (c : String) (reg : ProcessMap)
    (so se : String) (code : Option Int) (sig : Option String)
    (hreg : mapHas reg r = false) :
    stepEvent r p c
      { stdoutData := so, stderrData := se, processExited := false,
        exitCode := none, resultSent := false, timerActive := true,
        listenersActive := true, registry := reg, result := none }
      (DetachedEvent.exited code sig) =
      { stdoutData := so, stderrData := se, processExited := true,
        exitCode := code, resultSent := true, timerActive := false,
        listenersActive := false, registry := reg,
        result := some (earlyExitResult p code so se) } := by
  have hd := @deleteIfSamePid_of_has_false reg r p hreg
  simp [stepEvent, exitListenerBody, hd]

/-- C1: a detached start whose child prints the readiness phrase
"Server listening on port 4321" (in any chunking) and does not exit
before the observation timer fires resolves as a success classified
StartupConfirmed with detected port "4321", and immediately after
resolution the registry records the child pid under the workspace key. -/
theorem detached_ready_phrase_confirms_and_registers (registry : ProcessMap)
    (repoPath : String) (kill : Nat → KillOutcome) (pid : Nat) (cmd : String)
    (evs : List DetachedEvent)
    (hdata : ∀ e ∈ evs, isDataEvent e = true)
    (hout : stdoutOf evs = "Server listening on port 4321")
    (herr : stderrOf evs = "") :
    ∃ res, (executeCommandLongRunning registry repoPath kill pid cmd
        (evs ++ [DetachedEvent.timerFired])).result = some res ∧
      res.success = true ∧ res.kind = DetachedKind.startupConfirmed ∧
      res.detectedPort = some "4321" ∧
      mapGet (executeCommandLongRunning registry repoPath kill pid cmd
        (evs ++ [DetachedEvent.timerFired])).registry repoPath =
        some ⟨pid, cmd⟩ := by
  have hcls : classifyOutput "Server listening on port 4321" "" =
      (true, some "4321") := by decide
  have h1 := run_data_from_initial repoPath pid cmd
    (terminateTrackedProcess registry repoPath kill) evs hdata
  have hrun : executeCommandLongRunning registry repoPath kill pid cmd
      (evs ++ [DetachedEvent.timerFired]) =
      { stdoutData := "Server listening on port 4321", stderrData := "",
        processExited := false, exitCode := none, resultSent := true,
        timerActive := false, listenersActive := false,
        registry := mapSet (terminateTrackedProcess registry repoPath kill)
          repoPath ⟨pid, cmd⟩,
        result := some (timerResult pid true (some "4321")
          "Server listening on port 4321" "") } := by
    show runDetached repoPath pid cmd
        (initialDetachedState (terminateTrackedProcess registry repoPath kill))
        (evs ++ [DetachedEvent.timerFired]) = _
    rw [runDetached_append, h1, hout, herr, runDetached_cons, runDetached_nil,
      timer_fire_fresh, hcls]
    rfl
  rw [hrun]
  exact ⟨timerResult pid true (some "4321") "Server listening on port 4321" "",
    rfl, rfl, rfl, rfl, mapGet_mapSet_self _ _ _⟩

/-- Witness for C1: a concrete start printing the phrase in one chunk. -/
theorem detached_ready_phrase_confirms_and_registers_witness :
    ∃ res, (executeCommandLongRunning [] "k" (fun _ => KillOutcome.ok) 7
        "npm start"
        ([DetachedEvent.stdoutChunk "Server listening on port 4321"] ++
          [DetachedEvent.timerFired])).result = some res ∧
      res.success = true ∧ res.kind = DetachedKind.startupConfirmed ∧
      res.detectedPort = some "4321" ∧
      mapGet (executeCommandLongRunning [] "k" (fun _ => KillOutcome.ok) 7
        "npm start"
        ([DetachedEvent.stdoutChunk "Server listening on port 4321"] ++
          [DetachedEvent.timerFired])).registry "k" = some ⟨7, "npm start"⟩ :=
  detached_ready_phrase_confirms_and_registers [] "k" (fun _ => KillOutcome.ok)
    7 "npm start" [DetachedEvent.stdoutChunk "Server listening on port 4321"]
    (by decide) (by decide) (by decide)

/-- C2: a detached start whose child exits before the observation timer
fires resolves as an early-exit failure (success = false, kind
EarlyExit, never StartupUnconfirmed) carrying the exit code and the
captured output tails, and no record for the workspace key is ever in
the registry at any point of the invocation. -/
theorem detached_early_exit_no_registration (registry : ProcessMap)
    (repoPath : String) (kill : Nat → KillOutcome) (pid : Nat) (cmd : String)
    (evs1 : List DetachedEvent) (code : Option Int) (sig : Option String)
    (evs2 : List DetachedEvent)
    (hdata : ∀ e ∈ evs1, isDataEvent e = true) :
    (executeCommandLongRunning registry repoPath kill pid cmd
        (evs1 ++ DetachedEvent.exited code sig :: evs2)).result =
      some (earlyExitResult pid code (stdoutOf evs1) (stderrOf evs1)) ∧
    (earlyExitResult pid code (stdoutOf evs1) (stderrOf evs1)).success = false ∧
    (earlyExitResult pid code (stdoutOf evs1) (stderrOf evs1)).kind =
      DetachedKind.earlyExit ∧
    (earlyExitResult pid code (stdoutOf evs1) (stderrOf evs1)).exitCode = code ∧
    (∀ p q, evs1 ++ DetachedEvent.exited code sig :: evs2 = p ++ q →
      mapHas (executeCommandLongRunning registry repoPath kill pid cmd
        p).registry repoPath = false) := by
  have hreg : mapHas (terminateTrackedProcess registry repoPath kill) repoPath
      = false := mapHas_terminate_self registry repoPath kill
  have h1 := run_data_from_initial repoPath pid cmd
    (terminateTrackedProcess registry repoPath kill) evs1 hdata
  have hexit := exit_fire_fresh repoPath pid cmd
    (terminateTrackedProcess registry repoPath kill) (stdoutOf evs1)
    (stderrOf evs1) code sig hreg
  have hSexit : runDetached repoPath pid cmd
      (initialDetachedState (terminateTrackedProcess registry repoPath kill))
      (evs1 ++ [DetachedEvent.exited code sig]) =
      { stdoutData := stdoutOf evs1, stderrData := stderrOf evs1,
        processExited := true, exitCode := code, resultSent := true,
        timerActive := false, listenersActive := false,
        registry := terminateTrackedProcess registry repoPath kill,
        result := some (earlyExitResult pid code (stdoutOf evs1)
          (stderrOf evs1)) } := by
    rw [runDetached_append, h1, runDetached_cons, runDetached_nil, hexit]
  refine ⟨?_, rfl, rfl, rfl, ?_⟩
  · show (runDetached repoPath pid cmd
        (initialDetachedState (terminateTrackedProcess registry repoPath kill))
        (evs1 ++ DetachedEvent.exited code sig :: evs2)).result = _
    rw [show evs1 ++ DetachedEvent.exited code sig :: evs2 =
        (evs1 ++ [DetachedEvent.exited code sig]) ++ evs2 by simp,
      runDetached_append, hSexit]
    exact (runDetached_resolved_stable repoPath pid cmd evs2 rfl rfl).2.2
  · intro p q hpq
    rcases List.append_eq_append_iff.mp hpq with ⟨mid, hp, hb⟩ | ⟨mid, hevs1, _⟩
    · cases mid with
      | nil =>
        rw [List.append_nil] at hp
        rw [hp]
        show mapHas (runDetached repoPath pid cmd
            (initialDetachedState
              (terminateTrackedProcess registry repoPath kill)) evs1).registry
            repoPath = false
        rw [h1]
        exact hreg
      | cons x mid2 =>
        rw [List.cons_append] at hb
        injection hb with hx hrest
        subst hx
        subst hp
        show mapHas (runDetached repoPath pid cmd
            (initialDetachedState
              (terminateTrackedProcess registry repoPath kill))
            (evs1 ++ DetachedEvent.exited code sig :: mid2)).registry
            repoPath = false
        rw [show evs1 ++ DetachedEvent.exited code sig :: mid2 =
            (evs1 ++ [DetachedEvent.exited code sig]) ++ mid2 by simp,
          runDetached_append, hSexit]
        exact runDetached_resolved_has_false repoPath pid cmd mid2 rfl hreg
    · have hdata2 : ∀ e ∈ p, isDataEvent e = true := by
        intro e he
        refine hdata e ?_
        rw [hevs1]
        exact List.mem_append_left _ he
      show mapHas (runDetached repoPath pid cmd
          (initialDetachedState
            (terminateTrackedProcess registry repoPath kill)) p).registry
          repoPath = false
      rw [run_data_from_initial repoPath pid cmd _ p hdata2]
      exact hreg

/-- Witness for C2: a child that prints to stderr and exits with code 1
before the timer resolves as early exit, and the registry does not hold
the key right after the exit. -/
theorem detached_early_exit_no_registration_witness :
    (executeCommandLongRunning [] "k" (fun _ => KillOutcome.ok) 7 "npm start"
        ([DetachedEvent.stderrChunk "boom"] ++
          DetachedEvent.exited (some 1) none ::
            [DetachedEvent.timerFired])).result =
      some (earlyExitResult 7 (some 1)
        (stdoutOf [DetachedEvent.stderrChunk "boom"])
        (stderrOf [DetachedEvent.stderrChunk "boom"])) ∧
    mapHas (executeCommandLongRunning [] "k" (fun _ => KillOutcome.ok) 7
      "npm start" ([DetachedEvent.stderrChunk "boom"] ++
        [DetachedEvent.exited (some 1) none])).registry "k" = false :=
  ⟨(detached_early_exit_no_registration [] "k" (fun _ => KillOutcome.ok) 7
      "npm start" [DetachedEvent.stderrChunk "boom"] (some 1) none
      [DetachedEvent.timerFired] (by decide)).1,
   (detached_early_exit_no_registration [] "k" (fun _ => KillOutcome.ok) 7
      "npm start" [DetachedEvent.stderrChunk "boom"] (some 1) none
      [DetachedEvent.timerFired] (by decide)).2.2.2.2
     ([DetachedEvent.stderrChunk "boom"] ++ [DetachedEvent.exited (some 1) none])
     [DetachedEvent.timerFired] (by simp)⟩
